import Mathlib

/-!
# Verification of the projen task model and inspection CLI

A shallow embedding of `src/task.ts` (the `Task` class), the rendered task
spec, and the read-only task inspection traversal of `src/cli/tasks.ts`.

JavaScript arrays and objects are reference values: `Task._renderSpec`
hands out the *same* array/object that the task mutates, while the `steps`
getter hands out a fresh copy.  To reason about this aliasing faithfully we
model the heap explicitly: a `Store` holds all step arrays and all env
objects, and a `Task` holds indices (`stepsRef`, `envRef`) into it.
Mutating methods take a store and return the updated store together with an
`Except`-value standing for normal return versus a thrown `Error`.

JavaScript truthiness matters in two places translated here: the
constructor and `reset` guard on `if (command)` (so the empty string counts
as "no command"), and the inspection traversal guards on `step.spawn` /
`step.exec` / `step.builtin` being truthy.
-/

set_option autoImplicit false

namespace Projen

/-- Options carried by a single task step (`TaskStepOptions` in
`task-model.ts`): an optional step name, an optional per-step condition and
per-step environment overrides. -/
structure TaskStepOptions where
  name : Option String := none
  condition : Option String := none
  env : List (String × String) := []
  deriving Repr, DecidableEq

/-- A task step (`TaskStep` in `task-model.ts`): a tagged record where at
most one of `exec`, `spawn`, `say`, `builtin` is set, together with the
step options. -/
structure TaskStep where
  exec : Option String := none
  spawn : Option String := none
  say : Option String := none
  builtin : Option String := none
  name : Option String := none
  condition : Option String := none
  env : List (String × String) := []
  deriving Repr, DecidableEq

/-- The step literal `{ exec: command, ...options }` pushed by `Task.exec`
and unshifted by `Task.prependExec`. -/
def execStep (command : String) (o : TaskStepOptions) : TaskStep :=
  { exec := some command, name := o.name, condition := o.condition, env := o.env }

/-- The step literal `{ spawn: subtask.name, ...options }` pushed by
`Task.spawn` and unshifted by `Task.prependSpawn`. -/
def spawnStep (subName : String) (o : TaskStepOptions) : TaskStep :=
  { spawn := some subName, name := o.name, condition := o.condition, env := o.env }

/-- The step literal `{ say: message, ...options }` pushed by `Task.say`
and unshifted by `Task.prependSay`. -/
def sayStep (message : String) (o : TaskStepOptions) : TaskStep :=
  { say := some message, name := o.name, condition := o.condition, env := o.env }

/-- The step literal `{ builtin: name }` pushed by `Task.builtin`. -/
def builtinStep (name : String) : TaskStep :=
  { builtin := some name }

/-- JavaScript truthiness of an optional string: `undefined` and `""` are
falsy, every other string is truthy. -/
def truthy : Option String → Bool
  | some s => s ≠ ""
  | none => false

/-- The explicit heap: all step arrays and all environment objects live
here, and tasks refer to them by index. -/
structure Store where
  stepArrs : List (List TaskStep)
  envObjs : List (List (String × String))
  deriving Repr, DecidableEq

/-- The empty heap. -/
def emptyStore : Store := ⟨[], []⟩

namespace Store

/-- Read the step array behind reference `r`. -/
def getArr (σ : Store) (r : Nat) : List TaskStep :=
  σ.stepArrs.getD r []

/-- Overwrite the step array behind reference `r` (in-place array
mutation). -/
def setArr (σ : Store) (r : Nat) (v : List TaskStep) : Store :=
  { σ with stepArrs := σ.stepArrs.set r v }

/-- Allocate a fresh step array, returning the new store and the fresh
reference. -/
def allocArr (σ : Store) (v : List TaskStep) : Store × Nat :=
  ({ σ with stepArrs := σ.stepArrs ++ [v] }, σ.stepArrs.length)

/-- Read the env object behind reference `r`. -/
def getEnv (σ : Store) (r : Nat) : List (String × String) :=
  σ.envObjs.getD r []

/-- Overwrite the env object behind reference `r`. -/
def setEnv (σ : Store) (r : Nat) (v : List (String × String)) : Store :=
  { σ with envObjs := σ.envObjs.set r v }

/-- Allocate a fresh env object, returning the new store and the fresh
reference. -/
def allocEnv (σ : Store) (v : List (String × String)) : Store × Nat :=
  ({ σ with envObjs := σ.envObjs ++ [v] }, σ.envObjs.length)

end Store

/-- JavaScript object property lookup on our association-list model of a
plain object (keys are unique, first match wins). -/
def lookupEnv : List (String × String) → String → Option String
  | [], _ => none
  | p :: rest, k => if p.1 = k then some p.2 else lookupEnv rest k

/-- JavaScript object property assignment `obj[name] = value`: replace the
value of an existing key in place, otherwise append the new key at the
end (JS insertion order). -/
def upsert : List (String × String) → String → String → List (String × String)
  | [], k, v => [(k, v)]
  | p :: rest, k, v => if p.1 = k then (k, v) :: rest else p :: upsert rest k v

/-- Constructor options of a `Task` (`TaskOptions` extending
`TaskCommonOptions`). -/
structure TaskOptions where
  description : Option String := none
  condition : Option String := none
  cwd : Option String := none
  env : Option (List (String × String)) := none
  requiredEnv : Option (List String) := none
  exec : Option String := none
  deriving Repr, DecidableEq

/-- The `Task` class state.  `stepsRef` and `envRef` are the heap
references standing for the private `_steps` array and `_env` object. -/
structure Task where
  name : String
  condition : Option String
  stepsRef : Nat
  envRef : Nat
  cwd : Option String
  requiredEnv : Option (List String)
  _locked : Bool
  _description : Option String
  deriving Repr, DecidableEq

/-- The rendered task spec (`TaskSpec`).  `_renderSpec` copies neither the
steps array nor the env object, so the spec holds the same references the
live task mutates. -/
structure TaskSpec where
  name : String
  description : Option String
  envRef : Nat
  requiredEnv : Option (List String)
  stepsRef : Nat
  condition : Option String
  cwd : Option String
  deriving Repr, DecidableEq

/-- The message of the error thrown by `assertUnlocked`:
`Task "<name>" is locked for changes`. -/
def lockErrMsg (name : String) : String :=
  "Task \"" ++ name ++ "\" is locked for changes"

namespace Task

/-- `private assertUnlocked()`: throws when the task is locked. -/
def assertUnlocked (t : Task) : Except String Unit :=
  if t._locked then
    .error (lockErrMsg t.name)
  else
    .ok ()

/-- `lock()`: forbid additional changes to this task. -/
def lock (t : Task) : Task :=
  { t with _locked := true }

/-- The `description` getter. -/
def description (t : Task) : Option String :=
  t._description

/-- The `description` setter.  Note: it does not call `assertUnlocked`. -/
def setDescription (t : Task) (desc : Option String) : Task :=
  { t with _description := desc }

/-- The contents of the task's private `_steps` array in store `σ`. -/
def stepsVal (t : Task) (σ : Store) : List TaskStep :=
  σ.getArr t.stepsRef

/-- The contents of the task's private `_env` object in store `σ`. -/
def envVal (t : Task) (σ : Store) : List (String × String) :=
  σ.getEnv t.envRef

/-- `exec(command, options)`: assert unlocked then push
`{ exec: command, ...options }`. -/
def exec (t : Task) (command : String) (options : TaskStepOptions) (σ : Store) :
    Store × Except String Unit :=
  match t.assertUnlocked with
  | .error e => (σ, .error e)
  | .ok _ => (σ.setArr t.stepsRef (t.stepsVal σ ++ [execStep command options]), .ok ())

/-- `builtin(name)`: assert unlocked then push `{ builtin: name }`. -/
def builtin (t : Task) (name : String) (σ : Store) : Store × Except String Unit :=
  match t.assertUnlocked with
  | .error e => (σ, .error e)
  | .ok _ => (σ.setArr t.stepsRef (t.stepsVal σ ++ [builtinStep name]), .ok ())

/-- `say(message, options)`: assert unlocked then push
`{ say: message, ...options }`. -/
def say (t : Task) (message : String) (options : TaskStepOptions) (σ : Store) :
    Store × Except String Unit :=
  match t.assertUnlocked with
  | .error e => (σ, .error e)
  | .ok _ => (σ.setArr t.stepsRef (t.stepsVal σ ++ [sayStep message options]), .ok ())

/-- `spawn(subtask, options)`: assert unlocked then push
`{ spawn: subtask.name, ...options }` — only the subtask's *name* is
recorded. -/
def spawn (t : Task) (subtask : Task) (options : TaskStepOptions) (σ : Store) :
    Store × Except String Unit :=
  match t.assertUnlocked with
  | .error e => (σ, .error e)
  | .ok _ => (σ.setArr t.stepsRef (t.stepsVal σ ++ [spawnStep subtask.name options]), .ok ())

/-- `prependExec(shell, options)`: assert unlocked then unshift
`{ exec: shell, ...options }`. -/
def prependExec (t : Task) (shell : String) (options : TaskStepOptions) (σ : Store) :
    Store × Except String Unit :=
  match t.assertUnlocked with
  | .error e => (σ, .error e)
  | .ok _ => (σ.setArr t.stepsRef (execStep shell options :: t.stepsVal σ), .ok ())

/-- `prepend(shell, options)` (deprecated): assert unlocked then delegate
to `prependExec`. -/
def prepend (t : Task) (shell : String) (options : TaskStepOptions) (σ : Store) :
    Store × Except String Unit :=
  match t.assertUnlocked with
  | .error e => (σ, .error e)
  | .ok _ => t.prependExec shell options σ

/-- `prependSpawn(subtask, options)`: assert unlocked then unshift
`{ spawn: subtask.name, ...options }`. -/
def prependSpawn (t : Task) (subtask : Task) (options : TaskStepOptions) (σ : Store) :
    Store × Except String Unit :=
  match t.assertUnlocked with
  | .error e => (σ, .error e)
  | .ok _ => (σ.setArr t.stepsRef (spawnStep subtask.name options :: t.stepsVal σ), .ok ())

/-- `prependSay(message, options)`: assert unlocked then unshift
`{ say: message, ...options }`. -/
def prependSay (t : Task) (message : String) (options : TaskStepOptions) (σ : Store) :
    Store × Except String Unit :=
  match t.assertUnlocked with
  | .error e => (σ, .error e)
  | .ok _ => (σ.setArr t.stepsRef (sayStep message options :: t.stepsVal σ), .ok ())

/-- `env(name, value)`: assert unlocked then `this._env[name] = value`. -/
def env (t : Task) (name value : String) (σ : Store) : Store × Except String Unit :=
  match t.assertUnlocked with
  | .error e => (σ, .error e)
  | .ok _ => (σ.setEnv t.envRef (upsert (t.envVal σ) name value), .ok ())

/-- `reset(command?, options)`: assert unlocked, drain the steps array,
then — only when `command` is truthy (defined *and* non-empty, by JS
truthiness) — re-seed via `exec`. -/
def reset (t : Task) (command : Option String) (options : TaskStepOptions) (σ : Store) :
    Store × Except String Unit :=
  match t.assertUnlocked with
  | .error e => (σ, .error e)
  | .ok _ =>
    let σ1 := σ.setArr t.stepsRef []
    if truthy command then t.exec (command.getD "") options σ1 else (σ1, .ok ())

/-- The `steps` getter: `[...this._steps]` allocates a fresh array holding
a copy of the current steps and returns a reference to it. -/
def steps (t : Task) (σ : Store) : Store × Nat :=
  σ.allocArr (t.stepsVal σ)

/-- `_renderSpec()`: builds the manifest entry.  The `steps` and `env`
fields receive the task's own references — no copy is taken. -/
def _renderSpec (t : Task) : TaskSpec :=
  { name := t.name
    description := t.description
    envRef := t.envRef
    requiredEnv := t.requiredEnv
    stepsRef := t.stepsRef
    condition := t.condition
    cwd := t.cwd }

/-- The `Task` constructor: initializes the fields, allocates `_env`
(from `props.env ?? {}`) and an empty `_steps`, then — when `props.exec`
is truthy — seeds the first step via `this.exec(props.exec)`. -/
def construct (name : String) (props : TaskOptions) (σ : Store) : Store × Task :=
  let aE := σ.allocEnv (props.env.getD [])
  let aS := aE.1.allocArr []
  let t : Task :=
    { name := name
      condition := props.condition
      stepsRef := aS.2
      envRef := aE.2
      cwd := props.cwd
      requiredEnv := props.requiredEnv
      _locked := false
      _description := props.description }
  if truthy props.exec then ((t.exec (props.exec.getD "") {} aS.1).1, t)
  else (aS.1, t)

end Task

/-- A deserialized manifest entry as consumed by the standalone task
runtime: plain data, no heap references.  Mirrored from the `TaskSpec`
shape of the manifest (`name`, optional `description`, `env` mapping,
optional `requiredEnv`, `steps`, optional `condition`, optional `cwd`). -/
structure TaskSpecData where
  name : String := ""
  description : Option String := none
  env : List (String × String) := []
  requiredEnv : Option (List String) := none
  steps : List TaskStep := []
  condition : Option String := none
  cwd : Option String := none
  deriving Repr, DecidableEq

/-- Modelled from the spec: `TaskRuntime.tryFindTask` (the runtime class
itself is not among the sources here) "must work purely against the
manifest, without execution": it looks a task up in the manifest's
name-to-spec mapping and returns it, or `none` when absent.  We model the
manifest mapping as an association list keyed by task name. -/
def tryFindTask (manifest : List (String × TaskSpecData)) (name : String) :
    Option TaskSpecData :=
  (manifest.find? (fun p => p.1 = name)).map (fun p => p.2)

/-- `" ".repeat(indent)` used by `writeln` in `inspectTask`. -/
def indentStr (n : Nat) : String :=
  String.mk (List.replicate n ' ')

/-- The step loop of `inspectTask` (`src/cli/tasks.ts`): for each step, a
truthy `spawn` prints a `- name` line and recurses (via `f`, the
inspection of the subtask at `indent + 2`) right where the spawn step
occurs; a truthy `exec` or `builtin` prints a single line; anything else
(including `say` steps) prints nothing.  `none` stands for
non-termination fuel exhaustion, `some (.error e)` for a thrown `Error`,
`some (.ok lines)` for the printed lines. -/
def inspectStepsAux (f : String → Nat → Option (Except String (List String))) :
    List TaskStep → Nat → Option (Except String (List String))
  | [], _ => some (.ok [])
  | step :: rest, indent =>
    if truthy step.spawn then
      match f (step.spawn.getD "") (indent + 2) with
      | none => none
      | some (.error e) => some (.error e)
      | some (.ok sub) =>
        match inspectStepsAux f rest indent with
        | none => none
        | some (.error e) => some (.error e)
        | some (.ok more) =>
          some (.ok ((indentStr indent ++ "- " ++ step.spawn.getD "") :: (sub ++ more)))
    else if truthy step.exec then
      match inspectStepsAux f rest indent with
      | none => none
      | some (.error e) => some (.error e)
      | some (.ok more) =>
        some (.ok ((indentStr indent ++ "- exec: " ++ step.exec.getD "") :: more))
    else if truthy step.builtin then
      match inspectStepsAux f rest indent with
      | none => none
      | some (.error e) => some (.error e)
      | some (.ok more) =>
        some (.ok ((indentStr indent ++ "- builtin: " ++ step.builtin.getD "") :: more))
    else inspectStepsAux f rest indent

/-- `inspectTask(name, indent)` from `src/cli/tasks.ts`, with explicit
fuel for the recursion through `spawn` edges.  It resolves the task via
`tryFindTask` only (never the runtime's `runTask`), throws when the name
does not resolve, prints the description line (when truthy), one `env`
line per entry, and then walks the steps depth-first via
`inspectStepsAux`. -/
def inspectTask (m : List (String × TaskSpecData)) :
    Nat → String → Nat → Option (Except String (List String))
  | 0, _, _ => none
  | fuel + 1, name, indent =>
    match tryFindTask m name with
    | none => some (.error (name ++ ": unable to resolve subtask with name \"" ++ name ++ "\""))
    | some task =>
      let descLines : List String :=
        match task.description with
        | some d => if d ≠ "" then [indentStr indent ++ "description: " ++ d] else []
        | none => []
      let envLines : List String :=
        task.env.map (fun p => indentStr indent ++ "env: " ++ p.1 ++ "=" ++ p.2)
      match inspectStepsAux (inspectTask m fuel) task.steps indent with
      | none => none
      | some (.error e) => some (.error e)
      | some (.ok stepLines) => some (.ok (descLines ++ envLines ++ stepLines))

/-- One public mutation of a `Task` object: every method of the class that
can change task or heap state.  Used to quantify over "every task" as
"every state reachable from a constructor call". -/
inductive TaskOp where
  | execOp (command : String) (options : TaskStepOptions)
  | builtinOp (name : String)
  | sayOp (message : String) (options : TaskStepOptions)
  | spawnOp (subtask : Task) (options : TaskStepOptions)
  | prependOp (shell : String) (options : TaskStepOptions)
  | prependExecOp (shell : String) (options : TaskStepOptions)
  | prependSpawnOp (subtask : Task) (options : TaskStepOptions)
  | prependSayOp (message : String) (options : TaskStepOptions)
  | envOp (name value : String)
  | resetOp (command : Option String) (options : TaskStepOptions)
  | lockOp
  | setDescriptionOp (desc : Option String)
  deriving Repr

/-- Whether an operation is the `description` setter. -/
def TaskOp.isSetDescription : TaskOp → Bool
  | .setDescriptionOp _ => true
  | _ => false

/-- Apply one operation to a store/task pair; a thrown `TaskLockedError`
leaves the state as the method left it (the lock check runs before any
mutation). -/
def applyOp (st : Store × Task) : TaskOp → Store × Task
  | .execOp c o => ((st.2.exec c o st.1).1, st.2)
  | .builtinOp n => ((st.2.builtin n st.1).1, st.2)
  | .sayOp msg o => ((st.2.say msg o st.1).1, st.2)
  | .spawnOp sub o => ((st.2.spawn sub o st.1).1, st.2)
  | .prependOp s o => ((st.2.prepend s o st.1).1, st.2)
  | .prependExecOp s o => ((st.2.prependExec s o st.1).1, st.2)
  | .prependSpawnOp sub o => ((st.2.prependSpawn sub o st.1).1, st.2)
  | .prependSayOp msg o => ((st.2.prependSay msg o st.1).1, st.2)
  | .envOp n v => ((st.2.env n v st.1).1, st.2)
  | .resetOp c o => ((st.2.reset c o st.1).1, st.2)
  | .lockOp => (st.1, st.2.lock)
  | .setDescriptionOp d => (st.1, st.2.setDescription d)

/-- Apply a sequence of operations left to right. -/
def applyOps (st : Store × Task) (ops : List TaskOp) : Store × Task :=
  ops.foldl applyOp st

/-- A concrete unlocked task used to instantiate universally quantified
theorems. -/
def wTask : Task :=
  { name := "test"
    condition := none
    stepsRef := 0
    envRef := 0
    cwd := none
    requiredEnv := none
    _locked := false
    _description := none }

/-- A concrete store in which `wTask`'s references are valid and its step
array and env object are empty. -/
def wStore : Store := ⟨[[]], [[]]⟩

/-- A concrete store in which `wTask` already has one step. -/
def wStoreWithStep : Store := ⟨[[execStep "echo old" {}]], [[]]⟩

/-- A concrete subtask used to instantiate spawn theorems. -/
def wSub : Task :=
  { name := "sub"
    condition := none
    stepsRef := 0
    envRef := 0
    cwd := none
    requiredEnv := none
    _locked := false
    _description := none }

/-! ## Heap lemmas -/

theorem getArr_setArr_self (σ : Store) (r : Nat) (v : List TaskStep)
    (h : r < σ.stepArrs.length) : (σ.setArr r v).getArr r = v := by
  simp [Store.setArr, Store.getArr, List.getD_eq_getElem?_getD, List.getElem?_set_self h]

theorem getArr_setArr_ne (σ : Store) {r r' : Nat} (v : List TaskStep) (h : r ≠ r') :
    (σ.setArr r v).getArr r' = σ.getArr r' := by
  simp [Store.setArr, Store.getArr, List.getD_eq_getElem?_getD, List.getElem?_set_ne h]

theorem getEnv_setEnv_self (σ : Store) (r : Nat) (v : List (String × String))
    (h : r < σ.envObjs.length) : (σ.setEnv r v).getEnv r = v := by
  simp [Store.setEnv, Store.getEnv, List.getD_eq_getElem?_getD, List.getElem?_set_self h]

theorem getArr_allocArr_fresh (σ : Store) (v : List TaskStep) :
    (σ.allocArr v).1.getArr (σ.allocArr v).2 = v := by
  simp [Store.allocArr, Store.getArr, List.getD_eq_getElem?_getD,
    List.getElem?_concat_length]

theorem getArr_allocArr_old (σ : Store) (v : List TaskStep) {r : Nat}
    (h : r < σ.stepArrs.length) : (σ.allocArr v).1.getArr r = σ.getArr r := by
  simp [Store.allocArr, Store.getArr, List.getD_eq_getElem?_getD, List.getElem?_append, h]

theorem stepArrs_length_setArr (σ : Store) (r : Nat) (v : List TaskStep) :
    (σ.setArr r v).stepArrs.length = σ.stepArrs.length := by
  simp [Store.setArr]

theorem getEnv_setArr (σ : Store) (r r' : Nat) (v : List TaskStep) :
    (σ.setArr r v).getEnv r' = σ.getEnv r' := rfl

theorem getArr_setEnv (σ : Store) (r r' : Nat) (v : List (String × String)) :
    (σ.setEnv r v).getArr r' = σ.getArr r' := rfl

/-! ## Environment-object lemmas -/

theorem lookupEnv_upsert_self (l : List (String × String)) (k v : String) :
    lookupEnv (upsert l k v) k = some v := by
  induction l with
  | nil => simp [upsert, lookupEnv]
  | cons p rest ih =>
    by_cases h : p.1 = k
    · simp [upsert, lookupEnv, h]
    · simp [upsert, lookupEnv, h, ih]

theorem lookupEnv_upsert_ne (l : List (String × String)) (k v m : String) (h : m ≠ k) :
    lookupEnv (upsert l k v) m = lookupEnv l m := by
  induction l with
  | nil =>
    have hk : ¬ k = m := fun h2 => h h2.symm
    simp [upsert, lookupEnv, hk]
  | cons p rest ih =>
    by_cases hk : p.1 = k
    · subst hk
      have hm : ¬ p.1 = m := fun h2 => h h2.symm
      simp [upsert, lookupEnv, hm]
    · simp [upsert, lookupEnv, hk, ih]

/-! ## Mutator effect lemmas -/

theorem stepsVal_exec (t : Task) (σ : Store) (cmd : String) (o : TaskStepOptions)
    (hl : t._locked = false) (hv : t.stepsRef < σ.stepArrs.length) :
    t.stepsVal ((t.exec cmd o σ).1) = t.stepsVal σ ++ [execStep cmd o] := by
  simp [Task.exec, Task.assertUnlocked, hl, Task.stepsVal, getArr_setArr_self _ _ _ hv]

theorem stepsVal_prependExec (t : Task) (σ : Store) (cmd : String) (o : TaskStepOptions)
    (hl : t._locked = false) (hv : t.stepsRef < σ.stepArrs.length) :
    t.stepsVal ((t.prependExec cmd o σ).1) = execStep cmd o :: t.stepsVal σ := by
  simp [Task.prependExec, Task.assertUnlocked, hl, Task.stepsVal, getArr_setArr_self _ _ _ hv]

theorem stepsVal_spawn (t sub : Task) (σ : Store) (o : TaskStepOptions)
    (hl : t._locked = false) (hv : t.stepsRef < σ.stepArrs.length) :
    t.stepsVal ((t.spawn sub o σ).1) = t.stepsVal σ ++ [spawnStep sub.name o] := by
  simp [Task.spawn, Task.assertUnlocked, hl, Task.stepsVal, getArr_setArr_self _ _ _ hv]

theorem stepsVal_prependSpawn (t sub : Task) (σ : Store) (o : TaskStepOptions)
    (hl : t._locked = false) (hv : t.stepsRef < σ.stepArrs.length) :
    t.stepsVal ((t.prependSpawn sub o σ).1) = spawnStep sub.name o :: t.stepsVal σ := by
  simp [Task.prependSpawn, Task.assertUnlocked, hl, Task.stepsVal, getArr_setArr_self _ _ _ hv]

theorem envVal_env (t : Task) (σ : Store) (n v : String)
    (hl : t._locked = false) (he : t.envRef < σ.envObjs.length) :
    t.envVal ((t.env n v σ).1) = upsert (t.envVal σ) n v := by
  simp [Task.env, Task.assertUnlocked, hl, Task.envVal, getEnv_setEnv_self _ _ _ he]

theorem stepArrs_length_exec (t : Task) (σ : Store) (cmd : String) (o : TaskStepOptions)
    (hl : t._locked = false) :
    ((t.exec cmd o σ).1).stepArrs.length = σ.stepArrs.length := by
  simp [Task.exec, Task.assertUnlocked, hl, Store.setArr]

theorem envObjs_length_env (t : Task) (σ : Store) (n v : String)
    (hl : t._locked = false) :
    ((t.env n v σ).1).envObjs.length = σ.envObjs.length := by
  simp [Task.env, Task.assertUnlocked, hl, Store.setEnv]

theorem stepsVal_reset_none (t : Task) (σ : Store) (o : TaskStepOptions)
    (hl : t._locked = false) (hv : t.stepsRef < σ.stepArrs.length) :
    t.stepsVal ((t.reset none o σ).1) = [] := by
  simp [Task.reset, Task.assertUnlocked, hl, truthy, Task.stepsVal,
    getArr_setArr_self _ _ _ hv]

theorem stepsVal_reset_some (t : Task) (σ : Store) (cmd : String) (o : TaskStepOptions)
    (hl : t._locked = false) (hv : t.stepsRef < σ.stepArrs.length) (hc : cmd ≠ "") :
    t.stepsVal ((t.reset (some cmd) o σ).1) = [execStep cmd o] := by
  have hv1 : t.stepsRef < (σ.setArr t.stepsRef []).stepArrs.length := by
    simpa [stepArrs_length_setArr] using hv
  have h1 := stepsVal_exec t (σ.setArr t.stepsRef []) cmd o hl hv1
  have h0 : t.stepsVal (σ.setArr t.stepsRef []) = [] := getArr_setArr_self _ _ _ hv
  simp [Task.reset, Task.assertUnlocked, hl, truthy, hc, h1, h0]

/-! ## Claim theorems -/

/-- Claim C1: after `t.lock()`, every one of `exec`, `spawn`, `say`,
`builtin`, `reset`, `env`, `prepend`, `prependExec`, `prependSpawn` and
`prependSay` throws the locking error and returns the store untouched, so
`t.steps` is exactly what it was before the call. -/
theorem locked_task_rejects_every_mutator
    (t sub : Task) (σ : Store) (cmd msg bname n v : String)
    (o : TaskStepOptions) (c : Option String) :
    (t.lock).exec cmd o σ = (σ, .error (lockErrMsg t.name)) ∧
    (t.lock).spawn sub o σ = (σ, .error (lockErrMsg t.name)) ∧
    (t.lock).say msg o σ = (σ, .error (lockErrMsg t.name)) ∧
    (t.lock).builtin bname σ = (σ, .error (lockErrMsg t.name)) ∧
    (t.lock).reset c o σ = (σ, .error (lockErrMsg t.name)) ∧
    (t.lock).env n v σ = (σ, .error (lockErrMsg t.name)) ∧
    (t.lock).prepend cmd o σ = (σ, .error (lockErrMsg t.name)) ∧
    (t.lock).prependExec cmd o σ = (σ, .error (lockErrMsg t.name)) ∧
    (t.lock).prependSpawn sub o σ = (σ, .error (lockErrMsg t.name)) ∧
    (t.lock).prependSay msg o σ = (σ, .error (lockErrMsg t.name)) ∧
    ((t.lock).exec cmd o σ).1.getArr (t.lock).stepsRef = σ.getArr t.stepsRef :=
  ⟨rfl, rfl, rfl, rfl, rfl, rfl, rfl, rfl, rfl, rfl, rfl⟩

/-- Claim C10: the `description` setter is not guarded by the lock: after
`lock()`, setting the description succeeds (it is a total operation with no
`assertUnlocked` call), and both the getter and `_renderSpec` report the
new value. -/
theorem description_setter_ignores_lock (t : Task) (d : Option String) :
    ((t.lock).setDescription d).description = d ∧
    ((t.lock).setDescription d)._renderSpec.description = d ∧
    ((t.lock).setDescription d)._locked = true :=
  ⟨rfl, rfl, rfl⟩

/-- Claim C2: on an unlocked task with no steps, `exec "a"` then `exec "b"`
yields steps `[{exec:"a"}, {exec:"b"}]` in order, and a further
`prependExec "c"` yields `[{exec:"c"}, {exec:"a"}, {exec:"b"}]`; in
general `exec` appends at the end and `prependExec` inserts at index 0,
preserving insertion order. -/
theorem exec_appends_prependExec_prepends
    (t : Task) (σ : Store)
    (hl : t._locked = false)
    (hv : t.stepsRef < σ.stepArrs.length)
    (h0 : t.stepsVal σ = []) :
    t.stepsVal ((t.exec "a" {} σ).1) = [execStep "a" {}] ∧
    t.stepsVal ((t.exec "b" {} (t.exec "a" {} σ).1).1)
      = [execStep "a" {}, execStep "b" {}] ∧
    t.stepsVal ((t.prependExec "c" {} (t.exec "b" {} (t.exec "a" {} σ).1).1).1)
      = [execStep "c" {}, execStep "a" {}, execStep "b" {}] ∧
    (∀ (σ2 : Store) (cmd : String) (o : TaskStepOptions),
      t.stepsRef < σ2.stepArrs.length →
      t.stepsVal ((t.exec cmd o σ2).1) = t.stepsVal σ2 ++ [execStep cmd o] ∧
      t.stepsVal ((t.prependExec cmd o σ2).1) = execStep cmd o :: t.stepsVal σ2) := by
  have hv1 : t.stepsRef < ((t.exec "a" {} σ).1).stepArrs.length := by
    rw [stepArrs_length_exec t σ _ _ hl]; exact hv
  have hv2 : t.stepsRef < ((t.exec "b" {} (t.exec "a" {} σ).1).1).stepArrs.length := by
    rw [stepArrs_length_exec t _ _ _ hl]; exact hv1
  have e1 := stepsVal_exec t σ "a" {} hl hv
  have e2 := stepsVal_exec t ((t.exec "a" {} σ).1) "b" {} hl hv1
  have e3 := stepsVal_prependExec t ((t.exec "b" {} (t.exec "a" {} σ).1).1) "c" {} hl hv2
  refine ⟨?_, ?_, ?_, ?_⟩
  · rw [e1, h0]; rfl
  · rw [e2, e1, h0]; rfl
  · rw [e3, e2, e1, h0]; rfl
  · intro σ2 cmd o hv3
    exact ⟨stepsVal_exec t σ2 cmd o hl hv3, stepsVal_prependExec t σ2 cmd o hl hv3⟩

/-- Witness for C2 at a concrete fresh task and store. -/
theorem exec_appends_prependExec_prepends_witness :
    Task.stepsVal wTask ((Task.exec wTask "a" {} wStore).1) = [execStep "a" {}] ∧
    Task.stepsVal wTask ((Task.exec wTask "b" {} (Task.exec wTask "a" {} wStore).1).1)
      = [execStep "a" {}, execStep "b" {}] ∧
    Task.stepsVal wTask ((Task.prependExec wTask "c" {}
        (Task.exec wTask "b" {} (Task.exec wTask "a" {} wStore).1).1).1)
      = [execStep "c" {}, execStep "a" {}, execStep "b" {}] :=
  ⟨(exec_appends_prependExec_prepends wTask wStore (by decide) (by decide) (by decide)).1,
   (exec_appends_prependExec_prepends wTask wStore (by decide) (by decide) (by decide)).2.1,
   (exec_appends_prependExec_prepends wTask wStore (by decide) (by decide) (by decide)).2.2.1⟩

/-- Claim C3 counterexample: the spec rendered by `_renderSpec` is *not*
insulated from later mutation of the task: it holds the very same steps
array and env object references, so after `exec` (resp. `env`) the
previously rendered spec's steps (resp. env) have changed. -/
theorem renderSpec_not_immutable_counterexample :
    (Task.construct "t" {} emptyStore).2._renderSpec.stepsRef
        = (Task.construct "t" {} emptyStore).2.stepsRef ∧
    Store.getArr (Task.construct "t" {} emptyStore).1
        (Task.construct "t" {} emptyStore).2._renderSpec.stepsRef = [] ∧
    Store.getArr ((Task.construct "t" {} emptyStore).2.exec "echo hi" {}
          (Task.construct "t" {} emptyStore).1).1
        (Task.construct "t" {} emptyStore).2._renderSpec.stepsRef
      = [execStep "echo hi" {}] ∧
    ([execStep "echo hi" {}] : List TaskStep) ≠ [] ∧
    Store.getEnv (Task.construct "t" {} emptyStore).1
        (Task.construct "t" {} emptyStore).2._renderSpec.envRef = [] ∧
    Store.getEnv ((Task.construct "t" {} emptyStore).2.env "K" "V"
          (Task.construct "t" {} emptyStore).1).1
        (Task.construct "t" {} emptyStore).2._renderSpec.envRef
      = [("K", "V")] ∧
    ([("K", "V")] : List (String × String)) ≠ [] := by
  decide

/-- Claim C3 (amended): `_renderSpec` shares the live task's references:
the spec's `steps` and `env` are the task's own array and object, so a
mutation of the task *is* reflected in a previously rendered spec — after
`t.exec cmd`, reading the spec's steps yields the updated sequence, and
after `t.env n v`, reading the spec's env yields the updated mapping. -/
theorem renderSpec_aliases_live_task_state (t : Task) (σ : Store)
    (cmd n v : String) (o : TaskStepOptions)
    (hl : t._locked = false) (hs : t.stepsRef < σ.stepArrs.length)
    (he : t.envRef < σ.envObjs.length) :
    t._renderSpec.stepsRef = t.stepsRef ∧
    t._renderSpec.envRef = t.envRef ∧
    ((t.exec cmd o σ).1).getArr t._renderSpec.stepsRef
      = t.stepsVal σ ++ [execStep cmd o] ∧
    ((t.env n v σ).1).getEnv t._renderSpec.envRef = upsert (t.envVal σ) n v :=
  ⟨rfl, rfl, stepsVal_exec t σ cmd o hl hs, envVal_env t σ n v hl he⟩

/-- Witness for the amended C3 at a concrete task and store. -/
theorem renderSpec_aliases_live_task_state_witness :
    ((Task.exec wTask "echo hi" {} wStore).1).getArr wTask._renderSpec.stepsRef
      = Task.stepsVal wTask wStore ++ [execStep "echo hi" {}] ∧
    ((Task.env wTask "K" "V" wStore).1).getEnv wTask._renderSpec.envRef
      = upsert (Task.envVal wTask wStore) "K" "V" :=
  ⟨(renderSpec_aliases_live_task_state wTask wStore "echo hi" "K" "V" {}
      (by decide) (by decide) (by decide)).2.2.1,
   (renderSpec_aliases_live_task_state wTask wStore "echo hi" "K" "V" {}
      (by decide) (by decide) (by decide)).2.2.2⟩

/-- Claim C5 counterexample: `reset` with the empty-string command does
*not* re-seed one exec step: the steps end up empty rather than
`[{exec: ""}]`, because the source guards re-seeding on JS truthiness
(`if (command)`) and `""` is falsy. -/
theorem reset_empty_string_counterexample :
    Task.stepsVal wTask ((Task.reset wTask (some "") {} wStoreWithStep).1) = [] ∧
    Task.stepsVal wTask ((Task.reset wTask (some "") {} wStoreWithStep).1)
      ≠ [execStep "" {}] := by
  decide

/-- Claim C5 (amended): on an unlocked task, `reset()` with no command
empties the step sequence, and `reset(cmd, opts)` for a *non-empty* `cmd`
leaves exactly the single step `{exec: cmd, ...opts}`, regardless of the
steps held before. -/
theorem reset_clears_then_reseeds (t : Task) (σ : Store) (o : TaskStepOptions)
    (hl : t._locked = false) (hv : t.stepsRef < σ.stepArrs.length) :
    t.stepsVal ((t.reset none o σ).1) = [] ∧
    ∀ cmd : String, cmd ≠ "" →
      t.stepsVal ((t.reset (some cmd) o σ).1) = [execStep cmd o] :=
  ⟨stepsVal_reset_none t σ o hl hv,
   fun cmd hc => stepsVal_reset_some t σ cmd o hl hv hc⟩

/-- Witness for the amended C5 at a concrete task that already has a
step. -/
theorem reset_clears_then_reseeds_witness :
    Task.stepsVal wTask ((Task.reset wTask none {} wStoreWithStep).1) = [] ∧
    Task.stepsVal wTask ((Task.reset wTask (some "echo hi") {} wStoreWithStep).1)
      = [execStep "echo hi" {}] :=
  ⟨(reset_clears_then_reseeds wTask wStoreWithStep {} (by decide) (by decide)).1,
   (reset_clears_then_reseeds wTask wStoreWithStep {} (by decide) (by decide)).2
     "echo hi" (by decide)⟩

/-- Claim C6: `env(name, value)` is an unvalidated upsert with
last-write-wins semantics: it succeeds for every value, after
`env n v1; env n v2` the mapping sends `n` to `v2`, and every other name
is mapped exactly as before. -/
theorem env_upsert_last_write_wins (t : Task) (σ : Store) (n v1 v2 : String)
    (hl : t._locked = false) (he : t.envRef < σ.envObjs.length) :
    (t.env n v1 σ).2 = .ok () ∧
    lookupEnv (t.envVal ((t.env n v2 (t.env n v1 σ).1).1)) n = some v2 ∧
    ∀ m, m ≠ n →
      lookupEnv (t.envVal ((t.env n v2 (t.env n v1 σ).1).1)) m
        = lookupEnv (t.envVal σ) m := by
  have he1 : t.envRef < ((t.env n v1 σ).1).envObjs.length := by
    rw [envObjs_length_env t σ n v1 hl]; exact he
  have g1 := envVal_env t σ n v1 hl he
  have g2 := envVal_env t ((t.env n v1 σ).1) n v2 hl he1
  refine ⟨by simp [Task.env, Task.assertUnlocked, hl], ?_, ?_⟩
  · rw [g2, lookupEnv_upsert_self]
  · intro m hm
    rw [g2, lookupEnv_upsert_ne _ _ _ _ hm, g1, lookupEnv_upsert_ne _ _ _ _ hm]

/-- Witness for C6 at a concrete task, variable and values. -/
theorem env_upsert_last_write_wins_witness :
    (Task.env wTask "K" "v1" wStore).2 = .ok () ∧
    lookupEnv (Task.envVal wTask
        ((Task.env wTask "K" "v2" (Task.env wTask "K" "v1" wStore).1).1)) "K"
      = some "v2" ∧
    lookupEnv (Task.envVal wTask
        ((Task.env wTask "K" "v2" (Task.env wTask "K" "v1" wStore).1).1)) "M"
      = lookupEnv (Task.envVal wTask wStore) "M" :=
  ⟨(env_upsert_last_write_wins wTask wStore "K" "v1" "v2" (by decide) (by decide)).1,
   (env_upsert_last_write_wins wTask wStore "K" "v1" "v2" (by decide) (by decide)).2.1,
   (env_upsert_last_write_wins wTask wStore "K" "v1" "v2" (by decide) (by decide)).2.2
     "M" (by decide)⟩

/-- Claim C8: `spawn(sub, opts)` appends exactly one step whose `spawn`
field is the string `sub.name` (no other tag set), and
`prependSpawn(sub, opts)` inserts such a step at index 0 — the manifest
records the subtask's name, never the live object. -/
theorem spawn_records_subtask_name (t sub : Task) (o : TaskStepOptions) (σ : Store)
    (hl : t._locked = false) (hv : t.stepsRef < σ.stepArrs.length) :
    t.stepsVal ((t.spawn sub o σ).1) = t.stepsVal σ ++ [spawnStep sub.name o] ∧
    t.stepsVal ((t.prependSpawn sub o σ).1) = spawnStep sub.name o :: t.stepsVal σ ∧
    (spawnStep sub.name o).spawn = some sub.name ∧
    (spawnStep sub.name o).exec = none ∧
    (spawnStep sub.name o).say = none ∧
    (spawnStep sub.name o).builtin = none :=
  ⟨stepsVal_spawn t sub σ o hl hv, stepsVal_prependSpawn t sub σ o hl hv,
   rfl, rfl, rfl, rfl⟩

/-- Witness for C8 at a concrete task and subtask. -/
theorem spawn_records_subtask_name_witness :
    Task.stepsVal wTask ((Task.spawn wTask wSub {} wStore).1)
      = Task.stepsVal wTask wStore ++ [spawnStep "sub" {}] ∧
    Task.stepsVal wTask ((Task.prependSpawn wTask wSub {} wStoreWithStep).1)
      = spawnStep "sub" {} :: Task.stepsVal wTask wStoreWithStep :=
  ⟨(spawn_records_subtask_name wTask wSub {} wStore (by decide) (by decide)).1,
   (spawn_records_subtask_name wTask wSub {} wStoreWithStep (by decide) (by decide)).2.1⟩

/-- Claim C9: the `steps` getter returns a *fresh* array: its reference is
distinct from the task's internal one, it holds the same contents, and
overwriting it with any list leaves the task's internal sequence — and
hence what `_renderSpec` exposes — unchanged. -/
theorem steps_getter_returns_fresh_copy (t : Task) (σ : Store)
    (hv : t.stepsRef < σ.stepArrs.length) :
    (t.steps σ).2 ≠ t.stepsRef ∧
    (t.steps σ).1.getArr (t.steps σ).2 = t.stepsVal σ ∧
    ∀ ys : List TaskStep,
      t.stepsVal ((t.steps σ).1.setArr (t.steps σ).2 ys) = t.stepsVal σ ∧
      ((t.steps σ).1.setArr (t.steps σ).2 ys).getArr t._renderSpec.stepsRef
        = t.stepsVal σ := by
  have hne : (t.steps σ).2 ≠ t.stepsRef := ne_of_gt hv
  refine ⟨hne, getArr_allocArr_fresh σ _, fun ys => ?_⟩
  have h1 : ((t.steps σ).1.setArr (t.steps σ).2 ys).getArr t.stepsRef
      = (t.steps σ).1.getArr t.stepsRef :=
    getArr_setArr_ne ((t.steps σ).1) ys hne
  have h2 : (t.steps σ).1.getArr t.stepsRef = σ.getArr t.stepsRef :=
    getArr_allocArr_old σ _ hv
  exact ⟨h1.trans h2, h1.trans h2⟩

/-- Witness for C9 at a concrete task with one step, overwriting the copy
with the empty list. -/
theorem steps_getter_returns_fresh_copy_witness :
    (Task.steps wTask wStoreWithStep).2 ≠ wTask.stepsRef ∧
    Task.stepsVal wTask ((Task.steps wTask wStoreWithStep).1.setArr
        (Task.steps wTask wStoreWithStep).2 [])
      = Task.stepsVal wTask wStoreWithStep :=
  ⟨(steps_getter_returns_fresh_copy wTask wStoreWithStep (by decide)).1,
   ((steps_getter_returns_fresh_copy wTask wStoreWithStep (by decide)).2.2 []).1⟩

/-- Claim C4 counterexample: the description carried by `_renderSpec` is
the task's *current* description, not the construction-time one: a task
constructed with description `"a"` whose description is then assigned
`"b"` renders `"b"`.  (The setter is public and — see C10 — not even
guarded by the lock.) -/
theorem renderSpec_description_counterexample :
    ((Task.construct "t" { description := some "a" } emptyStore).2.setDescription
        (some "b"))._renderSpec.description = some "b" ∧
    (some "b" : Option String) ≠ some "a" := by
  decide

/-! ## Construction and operation-sequence invariants (for C4) -/

theorem construct_task_fields (name : String) (props : TaskOptions) (σ : Store) :
    (Task.construct name props σ).2.name = name ∧
    (Task.construct name props σ).2.condition = props.condition ∧
    (Task.construct name props σ).2.cwd = props.cwd ∧
    (Task.construct name props σ).2.requiredEnv = props.requiredEnv ∧
    (Task.construct name props σ).2._description = props.description ∧
    (Task.construct name props σ).2._locked = false := by
  cases h : truthy props.exec <;> simp [Task.construct, h]

theorem applyOp_preserves_identity (st : Store × Task) (op : TaskOp) :
    (applyOp st op).2.name = st.2.name ∧
    (applyOp st op).2.condition = st.2.condition ∧
    (applyOp st op).2.cwd = st.2.cwd ∧
    (applyOp st op).2.requiredEnv = st.2.requiredEnv ∧
    (applyOp st op).2.stepsRef = st.2.stepsRef ∧
    (applyOp st op).2.envRef = st.2.envRef ∧
    (op.isSetDescription = false →
      (applyOp st op).2._description = st.2._description) := by
  cases op <;> simp [applyOp, Task.lock, Task.setDescription, TaskOp.isSetDescription]

theorem applyOps_preserves_identity (ops : List TaskOp) :
    ∀ st : Store × Task, (∀ op ∈ ops, op.isSetDescription = false) →
    (applyOps st ops).2.name = st.2.name ∧
    (applyOps st ops).2.condition = st.2.condition ∧
    (applyOps st ops).2.cwd = st.2.cwd ∧
    (applyOps st ops).2.requiredEnv = st.2.requiredEnv ∧
    (applyOps st ops).2.stepsRef = st.2.stepsRef ∧
    (applyOps st ops).2.envRef = st.2.envRef ∧
    (applyOps st ops).2._description = st.2._description := by
  induction ops with
  | nil => intro st _; exact ⟨rfl, rfl, rfl, rfl, rfl, rfl, rfl⟩
  | cons op rest ih =>
    intro st h
    have h1 := applyOp_preserves_identity st op
    have h2 := ih (applyOp st op) (fun o ho => h o (List.mem_cons_of_mem _ ho))
    have hop : op.isSetDescription = false := h op (List.mem_cons_self _ _)
    exact ⟨h2.1.trans h1.1, h2.2.1.trans h1.2.1, h2.2.2.1.trans h1.2.2.1,
      h2.2.2.2.1.trans h1.2.2.2.1, h2.2.2.2.2.1.trans h1.2.2.2.2.1,
      h2.2.2.2.2.2.1.trans h1.2.2.2.2.2.1,
      h2.2.2.2.2.2.2.trans (h1.2.2.2.2.2.2 hop)⟩

/-- Claim C4: for a task constructed with `name` and `props` and then hit
by any sequence of method calls that does not assign `description`, the
rendered spec carries exactly: the construction name; the constructed
description, requiredEnv, condition and cwd; and the task's current step
sequence and environment mapping (the spec's references are the task's
own). -/
theorem renderSpec_fields_from_construction
    (name : String) (props : TaskOptions) (σ : Store) (ops : List TaskOp)
    (hd : ∀ op ∈ ops, op.isSetDescription = false) :
    (applyOps (Task.construct name props σ) ops).2._renderSpec.name = name ∧
    (applyOps (Task.construct name props σ) ops).2._renderSpec.description
      = props.description ∧
    (applyOps (Task.construct name props σ) ops).2._renderSpec.requiredEnv
      = props.requiredEnv ∧
    (applyOps (Task.construct name props σ) ops).2._renderSpec.condition
      = props.condition ∧
    (applyOps (Task.construct name props σ) ops).2._renderSpec.cwd = props.cwd ∧
    Store.getArr (applyOps (Task.construct name props σ) ops).1
        (applyOps (Task.construct name props σ) ops).2._renderSpec.stepsRef
      = Task.stepsVal (applyOps (Task.construct name props σ) ops).2
          (applyOps (Task.construct name props σ) ops).1 ∧
    Store.getEnv (applyOps (Task.construct name props σ) ops).1
        (applyOps (Task.construct name props σ) ops).2._renderSpec.envRef
      = Task.envVal (applyOps (Task.construct name props σ) ops).2
          (applyOps (Task.construct name props σ) ops).1 := by
  have hc := construct_task_fields name props σ
  have hp := applyOps_preserves_identity ops (Task.construct name props σ) hd
  exact ⟨hp.1.trans hc.1, hp.2.2.2.2.2.2.trans hc.2.2.2.2.1,
    hp.2.2.2.1.trans hc.2.2.2.1, hp.2.1.trans hc.2.1,
    hp.2.2.1.trans hc.2.2.1, rfl, rfl⟩

/-- Witness for C4: a fully optioned construction followed by `exec`,
`lock` and (failing) `env` calls. -/
theorem renderSpec_fields_from_construction_witness :
    (applyOps (Task.construct "build"
        { description := some "d"
          condition := some "c"
          cwd := some "w"
          env := some [("A", "B")]
          requiredEnv := some ["R"]
          exec := some "seed" } emptyStore)
        [TaskOp.execOp "x" {}, TaskOp.lockOp, TaskOp.envOp "K" "V"]).2._renderSpec.name
      = "build" ∧
    (applyOps (Task.construct "build"
        { description := some "d"
          condition := some "c"
          cwd := some "w"
          env := some [("A", "B")]
          requiredEnv := some ["R"]
          exec := some "seed" } emptyStore)
        [TaskOp.execOp "x" {}, TaskOp.lockOp, TaskOp.envOp "K" "V"]).2._renderSpec.description
      = some "d" :=
  ⟨(renderSpec_fields_from_construction "build"
      { description := some "d"
        condition := some "c"
        cwd := some "w"
        env := some [("A", "B")]
        requiredEnv := some ["R"]
        exec := some "seed" } emptyStore
      [TaskOp.execOp "x" {}, TaskOp.lockOp, TaskOp.envOp "K" "V"] (by decide)).1,
   (renderSpec_fields_from_construction "build"
      { description := some "d"
        condition := some "c"
        cwd := some "w"
        env := some [("A", "B")]
        requiredEnv := some ["R"]
        exec := some "seed" } emptyStore
      [TaskOp.execOp "x" {}, TaskOp.lockOp, TaskOp.envOp "K" "V"] (by decide)).2.1⟩

/-! ## Inspection traversal termination (for C7) -/

theorem inspectStepsAux_isSome
    (f : String → Nat → Option (Except String (List String)))
    (steps : List TaskStep)
    (hf : ∀ step ∈ steps, ∀ i, truthy step.spawn = true →
      (f (step.spawn.getD "") i).isSome = true) :
    ∀ indent, (inspectStepsAux f steps indent).isSome = true := by
  induction steps with
  | nil => intro indent; simp [inspectStepsAux]
  | cons step rest ih =>
    intro indent
    have hrest : ∀ s ∈ rest, ∀ i, truthy s.spawn = true →
        (f (s.spawn.getD "") i).isSome = true :=
      fun s hs => hf s (List.mem_cons_of_mem _ hs)
    have h3 := ih hrest indent
    by_cases hsp : truthy step.spawn = true
    · have h1 := hf step (List.mem_cons_self _ _) (indent + 2) hsp
      cases h2 : f (step.spawn.getD "") (indent + 2) with
      | none => rw [h2] at h1; simp at h1
      | some r =>
        cases r with
        | error e => simp [inspectStepsAux, hsp, h2]
        | ok sub =>
          cases h4 : inspectStepsAux f rest indent with
          | none => rw [h4] at h3; simp at h3
          | some r2 => cases r2 <;> simp [inspectStepsAux, hsp, h2, h4]
    · cases h4 : inspectStepsAux f rest indent with
      | none => rw [h4] at h3; simp at h3
      | some r2 =>
        by_cases hex : truthy step.exec = true
        · cases r2 <;> simp [inspectStepsAux, hsp, hex, h4]
        · by_cases hb : truthy step.builtin = true
          · cases r2 <;> simp [inspectStepsAux, hsp, hex, hb, h4]
          · simp [inspectStepsAux, hsp, hex, hb, h4]

/-- Claim C7: when the manifest's spawn graph is acyclic — witnessed by a
rank function `rk` that strictly decreases along every truthy spawn edge —
the read-only inspection traversal terminates: with fuel exceeding the
rank of the start task, `inspectTask` yields a result (the rendered lines,
or the thrown lookup error) and never exhausts its fuel.  The traversal is
defined purely over the manifest via `tryFindTask`; no execution is
modelled or needed. -/
theorem inspectTask_terminates_on_acyclic_manifest
    (m : List (String × TaskSpecData)) (rk : String → Nat)
    (hrank : ∀ p ∈ m, ∀ step ∈ p.2.steps, truthy step.spawn = true →
      rk (step.spawn.getD "") < rk p.1) :
    ∀ (fuel : Nat) (name : String) (indent : Nat), rk name < fuel →
      (inspectTask m fuel name indent).isSome = true := by
  intro fuel
  induction fuel with
  | zero => intro name indent h; exact absurd h (Nat.not_lt_zero _)
  | succ fuel ih =>
    intro name indent h
    cases hf : tryFindTask m name with
    | none => simp [inspectTask, hf]
    | some task =>
      obtain ⟨p, hp, hp2⟩ :
          ∃ p, List.find? (fun q => q.1 = name) m = some p ∧ p.2 = task := by
        cases hq : List.find? (fun q => q.1 = name) m with
        | none => simp [tryFindTask, hq] at hf
        | some p => exact ⟨p, rfl, by simpa [tryFindTask, hq] using hf⟩
      have hpm : p ∈ m := List.mem_of_find?_eq_some hp
      have hpname : p.1 = name := by simpa using List.find?_some hp
      have hsub : ∀ step ∈ task.steps, ∀ i, truthy step.spawn = true →
          (inspectTask m fuel (step.spawn.getD "") i).isSome = true := by
        intro step hs i htr
        apply ih
        have h2 := hrank p hpm step (by rw [hp2]; exact hs) htr
        rw [hpname] at h2
        omega
      have hsteps := inspectStepsAux_isSome (inspectTask m fuel) task.steps hsub indent
      cases hres : inspectStepsAux (inspectTask m fuel) task.steps indent with
      | none => rw [hres] at hsteps; simp at hsteps
      | some r => cases r <;> simp [inspectTask, hf, hres]

/-- Witness for C7: a two-task manifest in which `build` spawns `sub`
(also carrying an exec step, a say step and an env entry), ranked
`build ↦ 1`, `sub ↦ 0`, inspected with fuel 2. -/
theorem inspectTask_terminates_witness :
    (inspectTask
      [("build",
        { name := "build"
          description := some "builds it"
          env := [("CI", "true")]
          steps := [execStep "echo step1" {}, spawnStep "sub" {},
                    sayStep "done" {}] }),
       ("sub", { name := "sub", steps := [execStep "echo step2" {}] })]
      2 "build" 0).isSome = true :=
  inspectTask_terminates_on_acyclic_manifest
    [("build",
      { name := "build"
        description := some "builds it"
        env := [("CI", "true")]
        steps := [execStep "echo step1" {}, spawnStep "sub" {},
                  sayStep "done" {}] }),
     ("sub", { name := "sub", steps := [execStep "echo step2" {}] })]
    (fun s => if s = "build" then 1 else 0)
    (by decide) 2 "build" 0 (by decide)

end Projen
